import Mathlib

/-!
Verification development for the postfix-relay operator packages.

The repository contains two Python packages,
`postfix-relay-configurator-operator` and `postfix-relay-operator`, that
compile a validated charm state into Postfix configuration artifacts.
This file gives a shallow embedding of the pure core of both packages:

* the charm-state data model (`state.py` of each package),
* the restriction-list builders and map builders (`postfix.py`),
* the idempotent file writer (`utils.py`), modelled as explicit
  filesystem-state passing plus a trace of the filesystem operations
  performed,
* the alias-file merge (`update_aliases` in `charm.py`),
* the read-back parsers of the relay operator (`_parse_map`,
  `fetch_sender_access` in `postfix.py`), where Python exceptions
  (IndexError) are modelled by `Option`.

Python strings are modelled as Lean `String` / `List Char`; Python's
insertion-ordered `dict` is modelled as an association list.
-/

namespace PostfixRelay

/-- Python's `raw.split(sep)` for a one-character separator: splitting the
empty string yields `[""]`, a trailing separator yields a trailing empty
field.  The result is never empty. -/
def splitChar (c : Char) : List Char → List (List Char)
  | [] => [[]]
  | a :: rest =>
    if a = c then [] :: splitChar c rest
    else
      match splitChar c rest with
      | [] => [[a]]
      | l :: ls => (a :: l) :: ls

/-- Python's `f.readlines()` applied to a string: cut after every newline
character, keeping the newline at the end of each line; a final segment
without a newline is kept as a last line. -/
def readlines : List Char → List (List Char)
  | [] => []
  | a :: rest =>
    if a = '\n' then ['\n'] :: readlines rest
    else
      match readlines rest with
      | [] => [[a]]
      | l :: ls => (a :: l) :: ls

/-- The scanning loop of Python's `s.replace(pat, "")`: at each
position, a match of the (non-empty) pattern is removed and scanning
resumes after it, otherwise one character is kept.  The `budget`
argument only makes the recursion structural; since every step consumes
at least one character, a budget of `s.length` never runs out. -/
def replaceAllEmptyGo (pat : List Char) : Nat → List Char → List Char
  | _, [] => []
  | 0, s => s
  | budget + 1, a :: rest =>
    if pat ≠ [] ∧ pat.isPrefixOf (a :: rest) then
      replaceAllEmptyGo pat budget ((a :: rest).drop pat.length)
    else a :: replaceAllEmptyGo pat budget rest

/-- Python's `s.replace(pat, "")` for a non-empty pattern: remove every
(left-to-right, non-overlapping) occurrence of `pat`. -/
def replaceAllEmpty (pat s : List Char) : List Char :=
  replaceAllEmptyGo pat s.length s

/-- The whitespace characters stripped by Python's `str.strip()`
(ASCII fragment). -/
def isSpaceChar (c : Char) : Bool :=
  c = ' ' || c = '\t' || c = '\n' || c = '\r' || c = '\x0b' || c = '\x0c'

/-- Python's `s.strip()`: drop whitespace from both ends. -/
def stripChars (s : List Char) : List Char :=
  ((s.dropWhile isSpaceChar).reverse.dropWhile isSpaceChar).reverse

/-- Python's `f"{s:35}"`-style formatting: left-justify to the given
width, padding with spaces. -/
def pyLjust (s : String) (w : Nat) : String :=
  s ++ String.mk (List.replicate (w - s.length) ' ')

/-- `AccessMapValue` from `state.py`: the valid values of a Postfix
access map. -/
inductive AccessMapValue
  | OK
  | REJECT
  | RESTRICTED
deriving DecidableEq, Repr

/-- The `.value` string of each `AccessMapValue` member. -/
def AccessMapValue.value : AccessMapValue → String
  | .OK => "OK"
  | .REJECT => "REJECT"
  | .RESTRICTED => "restricted"

/-- The enum coercion `AccessMapValue(v)`; Python raises `ValueError` on a
non-member, modelled as `none`. -/
def AccessMapValue.fromValue : String → Option AccessMapValue
  | "OK" => some .OK
  | "REJECT" => some .REJECT
  | "restricted" => some .RESTRICTED
  | _ => none

/-- `PostfixLookupTableType` from `state.py`. -/
inductive PostfixLookupTableType
  | HASH
  | REGEXP
  | CIDR
deriving DecidableEq, Repr

/-- The `.value` string of each `PostfixLookupTableType` member. -/
def PostfixLookupTableType.value : PostfixLookupTableType → String
  | .HASH => "hash"
  | .REGEXP => "regexp"
  | .CIDR => "cidr"

/-- The enum coercion `PostfixLookupTableType(v)`; `ValueError` on a
non-member is modelled as `none`. -/
def PostfixLookupTableType.fromValue : String → Option PostfixLookupTableType
  | "hash" => some .HASH
  | "regexp" => some .REGEXP
  | "cidr" => some .CIDR
  | _ => none

/-- `JUJU_HEADER` from `utils.py` (identical in both packages). -/
def JUJU_HEADER : String := "# This file is Juju managed - do not edit by hand #\n\n"

namespace Cfg

/-- The charm state of the configurator package (`state.py`,
`class State`).  Fields listed in `src/state.py` come first; the source
file in this snapshot omits the declarations of the remaining fields that
`postfix.py` and `charm.py` of the same package read
(`enable_smtp_auth`, `enable_spf`, `append_x_envelope_to`,
`additional_smtpd_recipient_restrictions`, `header_checks`,
`smtp_header_checks`, `tls_policy_maps`, `spf_skip_addresses`); those are
modelled from the spec's ValidatedState field list (§3).  Python dicts
are insertion-ordered association lists here. -/
structure State where
  enable_reject_unknown_sender_domain : Bool
  relay_access_sources : List String
  relay_domains : List String
  restrict_recipients : List (String × AccessMapValue)
  restrict_senders : List (String × AccessMapValue)
  relay_host : Option String
  relay_recipient_maps : List (String × String)
  restrict_sender_access : List String
  sender_login_maps : List (String × String)
  transport_maps : List (String × String)
  virtual_alias_domains : List String
  virtual_alias_maps : List (String × String)
  virtual_alias_maps_type : PostfixLookupTableType
  enable_smtp_auth : Bool
  enable_spf : Bool
  append_x_envelope_to : Bool
  additional_smtpd_recipient_restrictions : List String
  header_checks : List String
  smtp_header_checks : List String
  tls_policy_maps : List (String × String)
  spf_skip_addresses : List String
deriving DecidableEq, Repr

/-- `smtpd_relay_restrictions` from the configurator's `postfix.py`
(lines 18-37); the relay operator's `_smtpd_relay_restrictions`
(`postfix.py` lines 31-45) is textually identical.  Python truthiness of
a list/dict is `!·.isEmpty`. -/
def smtpd_relay_restrictions (charm_state : State) : List String :=
  let relay_restrictions := ["permit_mynetworks"]
  let relay_restrictions :=
    if !charm_state.relay_access_sources.isEmpty then
      relay_restrictions ++ ["check_client_access cidr:/etc/postfix/relay_access"]
    else relay_restrictions
  let relay_restrictions :=
    if charm_state.enable_smtp_auth then
      let relay_restrictions :=
        if !charm_state.sender_login_maps.isEmpty then
          relay_restrictions ++ ["reject_known_sender_login_mismatch"]
        else relay_restrictions
      let relay_restrictions :=
        if !charm_state.restrict_senders.isEmpty then
          relay_restrictions ++ ["reject_sender_login_mismatch"]
        else relay_restrictions
      relay_restrictions ++ ["permit_sasl_authenticated"]
    else relay_restrictions
  relay_restrictions ++ ["defer_unauth_destination"]

/-- `smtpd_recipient_restrictions` from the configurator's `postfix.py`
(lines 56-75); the relay operator's `_smtpd_recipient_restrictions`
(`postfix.py` lines 59-75) is textually identical. -/
def smtpd_recipient_restrictions (charm_state : State) : List String :=
  let recipient_restrictions : List String := []
  let recipient_restrictions :=
    if charm_state.append_x_envelope_to then
      recipient_restrictions ++
        ["check_recipient_access regexp:/etc/postfix/append_envelope_to_header"]
    else recipient_restrictions
  let recipient_restrictions :=
    if !charm_state.restrict_senders.isEmpty then
      recipient_restrictions ++ ["check_sender_access hash:/etc/postfix/restricted_senders"]
    else recipient_restrictions
  let recipient_restrictions :=
    recipient_restrictions ++ charm_state.additional_smtpd_recipient_restrictions
  if charm_state.enable_spf then
    recipient_restrictions ++ ["check_policy_service unix:private/policyd-spf"]
  else recipient_restrictions

end Cfg

/-- `PostfixMap` from `postfix.py` (identical in both packages): an
artifact record.  `Path` values are modelled as strings. -/
structure PostfixMap where
  type : PostfixLookupTableType
  path : String
  content : String
deriving DecidableEq, Repr

/-- The nested `_create_map` of the configurator's `build_postfix_maps`:
`content = f"{utils.JUJU_HEADER}\n{content}\n"` and
`path = postfix_conf_dir_path / name`.  (The source sometimes passes the
lookup-table type as its `.value` string and coerces it back through
`PostfixLookupTableType(type_)`; that round trip is the identity, so the
type is passed directly here.) -/
def _create_map (postfix_conf_dir : String) (type_ : PostfixLookupTableType)
    (name content : String) : PostfixMap :=
  { type := type_
    path := postfix_conf_dir ++ "/" ++ name
    content := JUJU_HEADER ++ "\n" ++ content ++ "\n" }

/-- `"\n".join(f"{key} {value}" for ...)` over a string-valued map. -/
def kvLines (m : List (String × String)) : String :=
  String.intercalate "\n" (m.map (fun p => p.1 ++ " " ++ p.2))

/-- `"\n".join(f"{key} {value.value}" for ...)` over an access map. -/
def accessLines (m : List (String × AccessMapValue)) : String :=
  String.intercalate "\n" (m.map (fun p => p.1 ++ " " ++ p.2.value))

/-- `"".join(f"{domain:35} OK\n" for domain in ...)`. -/
def senderAccessBody (l : List String) : String :=
  String.join (l.map (fun domain => pyLjust domain 35 ++ " OK\n"))

namespace Cfg

/-- `build_postfix_maps` from the configurator's `postfix.py`
(lines 147-239): the returned insertion-ordered dict is modelled as the
association list of its entries in source order. -/
def build_postfix_maps (postfix_conf_dir : String) (charm_state : State) :
    List (String × PostfixMap) :=
  [("append_envelope_to_header",
    _create_map postfix_conf_dir .REGEXP "append_envelope_to_header"
      "/^(.*)$/ PREPEND X-Envelope-To: $1"),
   ("header_checks",
    _create_map postfix_conf_dir .REGEXP "header_checks"
      (String.intercalate ";" charm_state.header_checks)),
   ("relay_access_sources",
    _create_map postfix_conf_dir .CIDR "relay_access"
      (String.intercalate "\n" charm_state.relay_access_sources)),
   ("relay_recipient_maps",
    _create_map postfix_conf_dir .HASH "relay_recipient"
      (kvLines charm_state.relay_recipient_maps)),
   ("restrict_recipients",
    _create_map postfix_conf_dir .HASH "restricted_recipients"
      (accessLines charm_state.restrict_recipients)),
   ("restrict_senders",
    _create_map postfix_conf_dir .HASH "restricted_senders"
      (accessLines charm_state.restrict_senders)),
   ("sender_access",
    _create_map postfix_conf_dir .HASH "access"
      (senderAccessBody charm_state.restrict_sender_access)),
   ("sender_login_maps",
    _create_map postfix_conf_dir .HASH "sender_login"
      (kvLines charm_state.sender_login_maps)),
   ("smtp_header_checks",
    _create_map postfix_conf_dir .REGEXP "smtp_header_checks"
      (String.intercalate ";" charm_state.smtp_header_checks)),
   ("tls_policy_maps",
    _create_map postfix_conf_dir .HASH "tls_policy"
      (kvLines charm_state.tls_policy_maps)),
   ("transport_maps",
    _create_map postfix_conf_dir .HASH "transport"
      (kvLines charm_state.transport_maps)),
   ("virtual_alias_maps",
    _create_map postfix_conf_dir charm_state.virtual_alias_maps_type "virtual_alias"
      (kvLines charm_state.virtual_alias_maps))]

end Cfg

/-- A regular file's observable attributes, for the writer model. -/
structure FsFile where
  content : String
  perms : Nat
  owner : String
  group : String
deriving DecidableEq, Repr

/-- A mutating filesystem operation performed by the writer. -/
inductive FsOp
  | write (content : String)
  | chmod (perms : Nat)
  | chown (owner group : String)
deriving DecidableEq, Repr

namespace Cfg

/-- `write_file` from the configurator's `utils.py` (lines 15-41).  The
destination is `some f` when the path currently is a regular file `f`,
`none` otherwise; `owner` is the current process owner
(`pwd.getpwuid(os.getuid()).pw_name`) and `ownerPrimaryGroup` the name
of that owner's primary group.  The result is the file state after the
call together with the list of mutating filesystem operations performed
(the `owner`/group lookups are read-only).  Python's default argument
`perms=0o644` is passed explicitly by callers here. -/
def write_file (content : String) (destination : Option FsFile) (perms : Nat)
    (group : Option String) (owner ownerPrimaryGroup : String) :
    Option FsFile × List FsOp :=
  match destination with
  | some f =>
    if f.content = content then (some f, [])
    else
      let g := group.getD ownerPrimaryGroup
      (some { content := content, perms := perms, owner := owner, group := g },
       [FsOp.write content, FsOp.chmod perms, FsOp.chown owner g])
  | none =>
    let g := group.getD ownerPrimaryGroup
    (some { content := content, perms := perms, owner := owner, group := g },
     [FsOp.write content, FsOp.chmod perms, FsOp.chown owner g])

end Cfg

namespace RelayOp

/-- `write_file` from the relay operator's `utils.py` (lines 18-38): it
has no content comparison and unconditionally writes, chmods and chowns,
whatever the existing file holds. -/
def write_file (content : String) (destination : Option FsFile) (perms : Nat)
    (group : Option String) (owner ownerPrimaryGroup : String) :
    Option FsFile × List FsOp :=
  let _ := destination
  let g := group.getD ownerPrimaryGroup
  (some { content := content, perms := perms, owner := owner, group := g },
   [FsOp.write content, FsOp.chmod perms, FsOp.chown owner g])

/-- The charm state of the relay operator package.  Its `state.py` is not
part of this snapshot (only its callers are); the fields are modelled
from the spec's ValidatedState (§3) restricted to what the functions
embedded here read: `build_postfix_maps` reads `header_checks`,
`smtp_header_checks` and `tls_policy_maps`. -/
structure State where
  header_checks : List String
  smtp_header_checks : List String
  tls_policy_maps : List (String × String)
deriving DecidableEq, Repr

/-- `build_postfix_maps` from the relay operator's `postfix.py`
(lines 160-199): only three map categories, all rooted at the fixed
`/etc/postfix` directory. -/
def build_postfix_maps (charm_state : State) : List (String × PostfixMap) :=
  [("header_checks",
    _create_map "/etc/postfix" .REGEXP "header_checks"
      (String.intercalate ";" charm_state.header_checks)),
   ("smtp_header_checks",
    _create_map "/etc/postfix" .REGEXP "smtp_header_checks"
      (String.intercalate ";" charm_state.smtp_header_checks)),
   ("tls_policy_maps",
    _create_map "/etc/postfix" .HASH "tls_policy"
      (kvLines charm_state.tls_policy_maps))]

/-- One line of the relay operator's `_parse_map` dict comprehension:
`line.split(" ")[0]` and `line.split(" ")[1]`; a line with no space has a
single split token, so the `[1]` access raises IndexError (`none`). -/
def _parse_map_line (line : List Char) : Option (String × String) :=
  match splitChar ' ' line with
  | k :: v :: _ => some (String.mk k, String.mk v)
  | _ => none

/-- The line loop of `_parse_map`: the comprehension evaluates lines in
order and aborts (IndexError) at the first line without a space. -/
def _parse_map_lines : List (List Char) → Option (List (String × String))
  | [] => some []
  | line :: rest =>
    match _parse_map_line line with
    | some kv => (_parse_map_lines rest).map (kv :: ·)
    | none => none

/-- Python dict insertion with overwrite: an existing key keeps its
position and takes the new value, a new key is appended. -/
def pyDictInsert (d : List (String × String)) (k v : String) :
    List (String × String) :=
  if d.any (fun p => p.1 == k) then
    d.map (fun p => if p.1 == k then (p.1, v) else p)
  else d ++ [(k, v)]

/-- Collapse the parsed pairs into a dict (last value wins). -/
def dictOfPairs (l : List (String × String)) : List (String × String) :=
  l.foldl (fun d p => pyDictInsert d p.1 p.2) []

/-- `_parse_map` from the relay operator's `postfix.py` (lines 222-223):
`{line.split(" ")[0]: line.split(" ")[1] for line in raw_content.split("\n")}`.
`none` models the unhandled IndexError. -/
def _parse_map (raw_content : String) : Option (List (String × String)) :=
  (_parse_map_lines (splitChar '\n' raw_content.toList)).map dictOfPairs

/-- `_parse_list` from the relay operator's `postfix.py` (lines 226-227). -/
def _parse_list (raw_content : String) : List String :=
  (splitChar '\n' raw_content.toList).map String.mk

/-- The pure core of `fetch_sender_access` (`postfix.py` lines 270-277)
applied to the file content it read:
`[line.replace(" OK", "").strip() for line in _parse_list(content)]`. -/
def fetch_sender_access_content (raw_content : String) : List String :=
  (_parse_list raw_content).map
    (fun line => String.mk (stripChars (replaceAllEmpty " OK".toList line.toList)))

end RelayOp

/-- The synthetic line `"devnull:       /dev/null\n"` appended by
`update_aliases` when no devnull line was seen. -/
def devnullLine : List Char := "devnull:       /dev/null\n".toList

/-- The characters of the line-start marker `"devnull:"`. -/
def devnullMark : List Char := "devnull:".toList

/-- The characters of the line-start marker `"root:"`. -/
def rootMark : List Char := "root:".toList

/-- The root-forwarding line `f"root:          {admin_email}\n"`. -/
def rootLineFor (admin_email : String) : List Char :=
  "root:          ".toList ++ admin_email.toList ++ ['\n']

/-- Python truthiness of the `admin_email: str | None` argument of
`update_aliases`. -/
def adminTruthy : Option String → Bool
  | some e => !e.isEmpty
  | none => false

/-- The `for line in aliases` loop of `update_aliases`: one left-to-right
pass threading the `add_devnull` flag and the accumulated `new_aliases`. -/
def update_aliases_pass : List (List Char) → Bool → List (List Char) →
    Bool × List (List Char)
  | [], add_devnull, acc => (add_devnull, acc)
  | line :: rest, add_devnull, acc =>
    let add_devnull :=
      if add_devnull && devnullMark.isPrefixOf line then false else add_devnull
    let acc := if rootMark.isPrefixOf line then acc else acc ++ [line]
    update_aliases_pass rest add_devnull acc

/-- The merge on the list of lines produced by `readlines`: drop `root:`
lines, append the devnull line when none was seen, then append the
root-forwarding line when the admin email is truthy. -/
def update_aliases_merge (aliases : List (List Char)) (admin_email : Option String) :
    List (List Char) :=
  let p := update_aliases_pass aliases true []
  let new_aliases := if p.1 then p.2 ++ [devnullLine] else p.2
  match admin_email with
  | some e => if !e.isEmpty then new_aliases ++ [rootLineFor e] else new_aliases
  | none => new_aliases

/-- `update_aliases` from the relay operator's `charm.py` (lines 230-256)
and `_update_aliases` from the configurator's `charm.py` (lines 124-145)
(their merge logic is textually identical): the pure content
transformation from the current alias-file content (a missing file reads
as `""`) and the admin email to the new content passed to `write_file`. -/
def update_aliases_content (content : String) (admin_email : Option String) : String :=
  String.mk (update_aliases_merge (readlines content.toList) admin_email).flatten

/-- A line as produced by `readlines` on newline-terminated input:
a single newline character, at the end. -/
def CleanLine (l : List Char) : Prop := ∃ m, l = m ++ ['\n'] ∧ '\n' ∉ m

/-- Newline-terminated (or empty) text: the shape of any line-oriented
file that ends with a newline. -/
def TerminatedChars (cs : List Char) : Prop := cs = [] ∨ cs.getLast? = some '\n'

/-- Parse of a non-empty all-digit numeral without redundant leading
zeros, as accepted by the `ipaddress` module for octets and prefix
lengths. -/
def parseDecimal (s : List Char) : Option Nat :=
  if s ≠ [] ∧ s.all Char.isDigit ∧ (s.head? = some '0' → s.length = 1) then
    some (s.foldl (fun n c => 10 * n + (c.toNat - 48)) 0)
  else none

/-- One dotted-quad octet: a decimal numeral in `0..255`. -/
def isValidIPv4Octet (o : List Char) : Bool :=
  match parseDecimal o with
  | some n => n ≤ 255
  | none => false

/-- A dotted-quad IPv4 address literal. -/
def isValidIPv4Address (cs : List Char) : Bool :=
  match splitChar '.' cs with
  | [a, b, c, d] =>
    isValidIPv4Octet a && isValidIPv4Octet b && isValidIPv4Octet c && isValidIPv4Octet d
  | _ => false

/-- A hexadecimal digit. -/
def isHexDigitChar (c : Char) : Bool :=
  c.isDigit || ('a' ≤ c && c ≤ 'f') || ('A' ≤ c && c ≤ 'F')

/-- One IPv6 group: one to four hexadecimal digits. -/
def isHexGroup (g : List Char) : Bool :=
  !g.isEmpty && g.length ≤ 4 && g.all isHexDigitChar

/-- An IPv6 address literal, presented as its colon-split groups: either
eight hex groups, or a single `::` compression standing for at least one
zero group (the split then shows empty fields at the compression). -/
def isValidIPv6Groups (gs : List (List Char)) : Bool :=
  if gs = [[], [], []] then true
  else if gs.length = 8 then gs.all isHexGroup
  else
    match gs with
    | [] :: [] :: rest => !rest.isEmpty && rest.length ≤ 7 && rest.all isHexGroup
    | _ =>
      if gs.getLast? = some [] then
        match gs.reverse with
        | [] :: [] :: rest => !rest.isEmpty && rest.length ≤ 7 && rest.all isHexGroup
        | _ => false
      else
        gs.countP (· = ([] : List Char)) = 1 && gs.length ≤ 8 &&
          gs.all (fun g => g.isEmpty || isHexGroup g)

/-- The numeric prefix length of a network literal. -/
def isValidPrefixLen (p : List Char) (maxLen : Nat) : Bool :=
  match parseDecimal p with
  | some n => n ≤ maxLen
  | none => false

/-- Modelled from the spec: the validation performed on each
`spf_skip_addresses` entry (spec §3: entries "must be syntactically valid
IP network literals (including both IPv4 and IPv6, with correct
prefix-length bounds — e.g. `/33` on an IPv4 network is invalid)").  The
configurator's `state.py` in this snapshot omits the `spf_skip_addresses`
field handling that its `charm.py` and tests use, so the check is
modelled here rather than translated. -/
def isValidIpNetwork (s : String) : Bool :=
  match splitChar '/' s.toList with
  | [addr] => isValidIPv4Address addr || isValidIPv6Groups (splitChar ':' addr)
  | [addr, p] =>
    (isValidIPv4Address addr && isValidPrefixLen p 32) ||
    (isValidIPv6Groups (splitChar ':' addr) && isValidPrefixLen p 128)
  | _ => false

namespace Cfg

/-- The raw charm configuration consumed by `State.from_charm`, after
the YAML decoding of `_parse_map` / `_parse_list` (the decode itself
returns the empty collection for an absent field and is not modelled):
structured fields arrive as string lists and string-to-string
association lists, access-map values and the lookup-table type still as
raw strings. -/
structure CharmConfig where
  enable_reject_unknown_sender_domain : Bool
  append_x_envelope_to : Bool
  enable_smtp_auth : Bool
  enable_spf : Bool
  relay_access_sources : List String
  relay_domains : List String
  relay_host : Option String
  relay_recipient_maps : List (String × String)
  restrict_recipients : List (String × String)
  restrict_senders : List (String × String)
  restrict_sender_access : List String
  sender_login_maps : List (String × String)
  spf_skip_addresses : List String
  additional_smtpd_recipient_restrictions : List String
  header_checks : List String
  smtp_header_checks : List String
  tls_policy_maps : List (String × String)
  transport_maps : List (String × String)
  virtual_alias_domains : List String
  virtual_alias_maps : List (String × String)
  virtual_alias_maps_type : String
deriving DecidableEq, Repr

/-- `_parse_access_map` from the configurator's `state.py`
(lines 119-129): coerce every value through `AccessMapValue`; the first
`ValueError` aborts (`none`). -/
def _parse_access_map : List (String × String) → Option (List (String × AccessMapValue))
  | [] => some []
  | (k, v) :: rest =>
    match AccessMapValue.fromValue v, _parse_access_map rest with
    | some a, some tail => some ((k, a) :: tail)
    | _, _ => none

/-- `State.from_charm` from the configurator's `state.py`
(lines 182-234): any `ValueError` (enum coercions) or pydantic
`ValidationError` (field constraints; the `spf_skip_addresses` network
parse is modelled from the spec, see `isValidIpNetwork`) is caught and
re-raised as `ConfigurationError`, modelled as `Except.error` with the
diagnostic message.  On success the fully validated state is returned. -/
def State.from_charm (config : CharmConfig) : Except String State :=
  match _parse_access_map config.restrict_recipients with
  | none => .error "Invalid configuration"
  | some restrict_recipients =>
    match _parse_access_map config.restrict_senders with
    | none => .error "Invalid configuration"
    | some restrict_senders =>
      match PostfixLookupTableType.fromValue config.virtual_alias_maps_type with
      | none => .error "Invalid configuration"
      | some virtual_alias_maps_type =>
        if config.relay_domains.all (fun d => !d.isEmpty) &&
            (match config.relay_host with
             | some h => !h.isEmpty
             | none => true) &&
            config.restrict_sender_access.all (fun d => !d.isEmpty) &&
            config.virtual_alias_domains.all (fun d => !d.isEmpty) &&
            config.spf_skip_addresses.all isValidIpNetwork then
          .ok
            { enable_reject_unknown_sender_domain :=
                config.enable_reject_unknown_sender_domain
              relay_access_sources := config.relay_access_sources
              relay_domains := config.relay_domains
              restrict_recipients := restrict_recipients
              restrict_senders := restrict_senders
              relay_host := config.relay_host
              relay_recipient_maps := config.relay_recipient_maps
              restrict_sender_access := config.restrict_sender_access
              sender_login_maps := config.sender_login_maps
              transport_maps := config.transport_maps
              virtual_alias_domains := config.virtual_alias_domains
              virtual_alias_maps := config.virtual_alias_maps
              virtual_alias_maps_type := virtual_alias_maps_type
              enable_smtp_auth := config.enable_smtp_auth
              enable_spf := config.enable_spf
              append_x_envelope_to := config.append_x_envelope_to
              additional_smtpd_recipient_restrictions :=
                config.additional_smtpd_recipient_restrictions
              header_checks := config.header_checks
              smtp_header_checks := config.smtp_header_checks
              tls_policy_maps := config.tls_policy_maps
              spf_skip_addresses := config.spf_skip_addresses }
        else .error "Invalid configuration: invalid field values"

end Cfg

/-- The serialized body of each map category, category by category, as
the spec states it (spec §4.3): key-value maps one `"<key> <value>"`
line per entry newline-joined (enum `.value` for access maps), the
sender-access list one `"<entry ljust 35> OK"` line per entry, header
checks semicolon-joined into a single line, the append-envelope rule a
fixed regexp rewrite, relay-access sources newline-joined. -/
def mapBodySpec (name : String) (s : Cfg.State) : String :=
  if name = "append_envelope_to_header" then "/^(.*)$/ PREPEND X-Envelope-To: $1"
  else if name = "header_checks" then String.intercalate ";" s.header_checks
  else if name = "relay_access_sources" then
    String.intercalate "\n" s.relay_access_sources
  else if name = "relay_recipient_maps" then kvLines s.relay_recipient_maps
  else if name = "restrict_recipients" then accessLines s.restrict_recipients
  else if name = "restrict_senders" then accessLines s.restrict_senders
  else if name = "sender_access" then senderAccessBody s.restrict_sender_access
  else if name = "sender_login_maps" then kvLines s.sender_login_maps
  else if name = "smtp_header_checks" then String.intercalate ";" s.smtp_header_checks
  else if name = "tls_policy_maps" then kvLines s.tls_policy_maps
  else if name = "transport_maps" then kvLines s.transport_maps
  else if name = "virtual_alias_maps" then kvLines s.virtual_alias_maps
  else ""

/-- A concrete state realizing the spec's relay-restrictions example:
`relay_access_sources` non-empty, SMTP auth on, `sender_login_maps`
and `restrict_senders` non-empty. -/
def exampleRelayState : Cfg.State where
  enable_reject_unknown_sender_domain := false
  relay_access_sources := ["a"]
  relay_domains := []
  restrict_recipients := []
  restrict_senders := [("s", .OK)]
  relay_host := none
  relay_recipient_maps := []
  restrict_sender_access := []
  sender_login_maps := [("x", "y")]
  transport_maps := []
  virtual_alias_domains := []
  virtual_alias_maps := []
  virtual_alias_maps_type := .HASH
  enable_smtp_auth := true
  enable_spf := false
  append_x_envelope_to := false
  additional_smtpd_recipient_restrictions := []
  header_checks := []
  smtp_header_checks := []
  tls_policy_maps := []
  spf_skip_addresses := []

/-- A concrete state realizing the spec's map-serialization example:
`transport_maps` holds the single entry `domain.com` to
`smtp:relay.example.com`. -/
def exampleMapState : Cfg.State :=
  { exampleRelayState with transport_maps := [("domain.com", "smtp:relay.example.com")] }

/-- A benign baseline charm configuration (all collections empty, a
valid lookup-table type) for concrete validation runs. -/
def exampleCharmConfig : Cfg.CharmConfig where
  enable_reject_unknown_sender_domain := true
  append_x_envelope_to := false
  enable_smtp_auth := true
  enable_spf := false
  relay_access_sources := []
  relay_domains := []
  relay_host := none
  relay_recipient_maps := []
  restrict_recipients := []
  restrict_senders := []
  restrict_sender_access := []
  sender_login_maps := []
  spf_skip_addresses := []
  additional_smtpd_recipient_restrictions := []
  header_checks := []
  smtp_header_checks := []
  tls_policy_maps := []
  transport_maps := []
  virtual_alias_domains := []
  virtual_alias_maps := []
  virtual_alias_maps_type := "hash"

end PostfixRelay

namespace PostfixRelay

/-! ### Helper lemmas about the string primitives -/

lemma splitChar_cons_sep (c : Char) (rest : List Char) :
    splitChar c (c :: rest) = [] :: splitChar c rest := by
  simp [splitChar]

lemma splitChar_ne_nil (c : Char) (cs : List Char) : splitChar c cs ≠ [] := by
  cases cs with
  | nil => simp [splitChar]
  | cons a rest =>
    simp only [splitChar]
    split
    · simp
    · split <;> simp

lemma splitChar_cons_ne (c a : Char) (rest : List Char) (h : ¬ a = c)
    (l : List Char) (ls : List (List Char)) (hls : splitChar c rest = l :: ls) :
    splitChar c (a :: rest) = (a :: l) :: ls := by
  simp [splitChar, if_neg h, hls]

lemma splitChar_no_sep (c : Char) (cs : List Char) (h : c ∉ cs) :
    splitChar c cs = [cs] := by
  induction cs with
  | nil => rfl
  | cons a rest ih =>
    have hac : ¬ a = c := fun hh => h (hh ▸ List.mem_cons_self a rest)
    have hcr : c ∉ rest := fun hh => h (List.mem_cons_of_mem a hh)
    exact splitChar_cons_ne c a rest hac rest [] (ih hcr)

lemma splitChar_append_sep (c : Char) (xs ys : List Char) (h : c ∉ xs) :
    splitChar c (xs ++ c :: ys) = xs :: splitChar c ys := by
  induction xs with
  | nil => simpa using splitChar_cons_sep c ys
  | cons a xs ih =>
    have hac : ¬ a = c := fun hh => h (hh ▸ List.mem_cons_self a xs)
    have hcx : c ∉ xs := fun hh => h (List.mem_cons_of_mem a hh)
    rw [List.cons_append]
    exact splitChar_cons_ne c a _ hac xs (splitChar c ys) (ih hcx)

lemma splitChar_concat (c : Char) (m : List Char) :
    splitChar c (m ++ [c]) = splitChar c m ++ [[]] := by
  induction m with
  | nil => simp [splitChar]
  | cons a m ih =>
    by_cases hac : a = c
    · subst hac
      rw [List.cons_append, splitChar_cons_sep, ih, splitChar_cons_sep,
        List.cons_append]
    · obtain ⟨l, ls, hls⟩ := List.exists_cons_of_ne_nil (splitChar_ne_nil c m)
      rw [List.cons_append,
        splitChar_cons_ne c a _ hac l (ls ++ [[]]) (by rw [ih, hls]; rfl),
        splitChar_cons_ne c a m hac l ls hls, List.cons_append]

lemma readlines_cons_nl (rest : List Char) :
    readlines ('\n' :: rest) = ['\n'] :: readlines rest := by
  simp [readlines]

lemma readlines_ne_nil (a : Char) (rest : List Char) :
    readlines (a :: rest) ≠ [] := by
  simp only [readlines]
  split
  · simp
  · split <;> simp

lemma readlines_cons_ne (a : Char) (rest : List Char) (h : ¬ a = '\n')
    (l : List Char) (ls : List (List Char)) (hls : readlines rest = l :: ls) :
    readlines (a :: rest) = (a :: l) :: ls := by
  simp [readlines, if_neg h, hls]

lemma readlines_append_line (m rest : List Char) (h : '\n' ∉ m) :
    readlines (m ++ '\n' :: rest) = (m ++ ['\n']) :: readlines rest := by
  induction m with
  | nil => simpa using readlines_cons_nl rest
  | cons a m ih =>
    have ha : ¬ a = '\n' := fun hh => h (hh ▸ List.mem_cons_self a m)
    have hm : '\n' ∉ m := fun hh => h (List.mem_cons_of_mem a hh)
    rw [List.cons_append]
    rw [readlines_cons_ne a _ ha (m ++ ['\n']) (readlines rest) (ih hm),
      List.cons_append]

lemma readlines_flatten_of_clean (L : List (List Char))
    (h : ∀ l ∈ L, CleanLine l) : readlines L.flatten = L := by
  induction L with
  | nil => rfl
  | cons l L ih =>
    have hcl : ∃ m, l = m ++ ['\n'] ∧ '\n' ∉ m := h l (List.mem_cons_self l L)
    obtain ⟨m, hm, hnm⟩ := hcl
    have hrest : ∀ x ∈ L, CleanLine x := fun x hx => h x (List.mem_cons_of_mem l hx)
    subst hm
    rw [List.flatten_cons, List.append_assoc, List.singleton_append,
      readlines_append_line _ _ hnm, ih hrest]

lemma readlines_clean_of_terminated (cs : List Char) (h : TerminatedChars cs) :
    ∀ l ∈ readlines cs, CleanLine l := by
  induction cs with
  | nil => intro l hl; simp [readlines] at hl
  | cons a rest ih =>
    have hor : a :: rest = [] ∨ (a :: rest).getLast? = some '\n' := h
    intro l hl
    cases hrest : rest with
    | nil =>
      subst hrest
      have ha : a = '\n' := by
        rcases hor with hor | hor
        · simp at hor
        · simpa using hor
      subst ha
      rw [readlines_cons_nl] at hl
      have : l = ['\n'] := by simpa [readlines] using hl
      subst this
      exact ⟨[], rfl, by simp⟩
    | cons b bs =>
      subst hrest
      have hterm : TerminatedChars (b :: bs) := by
        rcases hor with hor | hor
        · simp at hor
        · right
          rw [List.getLast?_cons_cons] at hor
          exact hor
      by_cases ha : a = '\n'
      · subst ha
        rw [readlines_cons_nl] at hl
        rcases List.mem_cons.mp hl with rfl | hl
        · exact ⟨[], rfl, by simp⟩
        · exact ih hterm l hl
      · obtain ⟨l0, ls0, hls⟩ := List.exists_cons_of_ne_nil (readlines_ne_nil b bs)
        rw [readlines_cons_ne a _ ha l0 ls0 hls] at hl
        rcases List.mem_cons.mp hl with rfl | hl
        · have : CleanLine l0 := ih hterm l0 (hls ▸ List.mem_cons_self l0 ls0)
          obtain ⟨m, hm, hnm⟩ := this
          refine ⟨a :: m, by rw [hm, List.cons_append], ?_⟩
          simp only [List.mem_cons, not_or]
          exact ⟨fun hh => ha hh.symm, hnm⟩
        · exact ih hterm l (hls ▸ List.mem_cons_of_mem l0 hl)

/-! ### Helper lemmas about the alias merge -/

lemma devnullMark_eq : devnullMark = ['d', 'e', 'v', 'n', 'u', 'l', 'l', ':'] := by
  decide

lemma rootMark_eq : rootMark = ['r', 'o', 'o', 't', ':'] := by decide

lemma rootLineFor_eq (e : String) :
    rootLineFor e = 'r' :: ("oot:          ".toList ++ e.toList ++ ['\n']) := by
  have : "root:          ".toList = 'r' :: "oot:          ".toList := by decide
  simp [rootLineFor, this]

lemma devnull_not_root (l : List Char) (h : devnullMark.isPrefixOf l = true) :
    rootMark.isPrefixOf l = false := by
  cases l with
  | nil => rw [devnullMark_eq] at h; simp [List.isPrefixOf] at h
  | cons b bs =>
    rw [devnullMark_eq] at h
    rw [rootMark_eq]
    simp only [List.isPrefixOf, Bool.and_eq_true, beq_iff_eq] at h
    obtain ⟨rfl, -⟩ := h
    simp [List.isPrefixOf]

lemma root_isPrefixOf_rootLineFor (e : String) :
    rootMark.isPrefixOf (rootLineFor e) = true := by
  have hsplit : "root:          ".toList = rootMark ++ "          ".toList := by decide
  have heq : rootLineFor e = rootMark ++ ("          ".toList ++ e.toList ++ ['\n']) := by
    rw [rootLineFor, hsplit]
    simp [List.append_assoc]
  rw [heq, List.isPrefixOf_iff_prefix]
  exact List.prefix_append _ _

lemma devnull_not_prefix_rootLineFor (e : String) :
    devnullMark.isPrefixOf (rootLineFor e) = false := by
  rw [rootLineFor_eq, devnullMark_eq]
  simp [List.isPrefixOf]

lemma devnull_prefix_devnullLine : devnullMark.isPrefixOf devnullLine = true := by
  decide

lemma root_not_prefix_devnullLine : rootMark.isPrefixOf devnullLine = false := by
  decide

lemma cleanLine_devnullLine : CleanLine devnullLine :=
  ⟨"devnull:       /dev/null".toList, by decide, by decide⟩

lemma cleanLine_rootLineFor (e : String) (h : e.toList.contains '\n' = false) :
    CleanLine (rootLineFor e) := by
  refine ⟨"root:          ".toList ++ e.toList, by simp [rootLineFor], ?_⟩
  simp only [List.mem_append, not_or]
  refine ⟨by decide, ?_⟩
  intro hmem
  rw [List.contains_eq_any_beq, List.any_eq_false] at h
  have hx := h '\n' hmem
  simp at hx

lemma update_aliases_pass_eq (lines : List (List Char)) (b : Bool)
    (acc : List (List Char)) :
    update_aliases_pass lines b acc =
      (b && !(lines.any (fun l => devnullMark.isPrefixOf l)),
       acc ++ lines.filter (fun l => !(rootMark.isPrefixOf l))) := by
  induction lines generalizing b acc with
  | nil => simp [update_aliases_pass]
  | cons line rest ih =>
    simp only [update_aliases_pass, ih, List.any_cons, List.filter_cons,
      Prod.mk.injEq]
    refine ⟨?_, ?_⟩
    · cases b <;> cases hd : devnullMark.isPrefixOf line <;> simp [hd]
    · cases hr : rootMark.isPrefixOf line <;> simp [hr, List.append_assoc]

lemma update_aliases_merge_eq (L : List (List Char)) (a : Option String) :
    update_aliases_merge L a =
      L.filter (fun l => !(rootMark.isPrefixOf l)) ++
      (if L.any (fun l => devnullMark.isPrefixOf l) then [] else [devnullLine]) ++
      (match a with
       | some e => if !e.isEmpty then [rootLineFor e] else []
       | none => []) := by
  cases ha : L.any (fun l => devnullMark.isPrefixOf l) <;>
    cases a with
    | none =>
      simp [update_aliases_merge, update_aliases_pass_eq, ha]
    | some e =>
      cases he : e.isEmpty <;>
        simp [update_aliases_merge, update_aliases_pass_eq, ha, he,
          List.append_assoc]

lemma update_aliases_merge_eq2 (L : List (List Char)) (a : Option String) :
    update_aliases_merge L a =
      L.filter (fun l => !(rootMark.isPrefixOf l)) ++
      (if L.any (fun l => devnullMark.isPrefixOf l) then [] else [devnullLine]) ++
      (if adminTruthy a then [rootLineFor (a.getD "")] else []) := by
  rw [update_aliases_merge_eq]
  congr 1
  cases a with
  | none => rfl
  | some e => cases he : e.isEmpty <;> simp [adminTruthy, he]

lemma update_aliases_merge_any_devnull (L : List (List Char)) (a : Option String) :
    (update_aliases_merge L a).any (fun l => devnullMark.isPrefixOf l) = true := by
  rw [update_aliases_merge_eq]
  cases ha : L.any (fun l => devnullMark.isPrefixOf l) with
  | false =>
    refine List.any_eq_true.mpr ⟨devnullLine, ?_, devnull_prefix_devnullLine⟩
    simp [ha]
  | true =>
    rw [List.any_eq_true] at ha
    obtain ⟨l, hl, hd⟩ := ha
    have hroot : rootMark.isPrefixOf l = false := devnull_not_root l hd
    refine List.any_eq_true.mpr ⟨l, ?_, hd⟩
    simp [List.mem_filter, hl, hroot]

lemma filter_root_update_aliases_merge (L : List (List Char)) (a : Option String) :
    (update_aliases_merge L a).filter (fun l => !(rootMark.isPrefixOf l)) =
      L.filter (fun l => !(rootMark.isPrefixOf l)) ++
      (if L.any (fun l => devnullMark.isPrefixOf l) then [] else [devnullLine]) := by
  rw [update_aliases_merge_eq, List.filter_append, List.filter_append]
  have hA : (L.filter (fun l => !(rootMark.isPrefixOf l))).filter
      (fun l => !(rootMark.isPrefixOf l)) =
      L.filter (fun l => !(rootMark.isPrefixOf l)) := by
    rw [List.filter_filter]
    simp only [Bool.and_self]
  have hB : ((if L.any (fun l => devnullMark.isPrefixOf l) then []
      else [devnullLine]) : List (List Char)).filter
      (fun l => !(rootMark.isPrefixOf l)) =
      (if L.any (fun l => devnullMark.isPrefixOf l) then [] else [devnullLine]) := by
    cases L.any (fun l => devnullMark.isPrefixOf l) <;>
      simp [root_not_prefix_devnullLine]
  have hC : ((match a with
      | some e => if !e.isEmpty then [rootLineFor e] else []
      | none => []) : List (List Char)).filter
      (fun l => !(rootMark.isPrefixOf l)) = [] := by
    cases a with
    | none => rfl
    | some e =>
      cases he : e.isEmpty <;> simp [he, root_isPrefixOf_rootLineFor]
  rw [hA, hB, hC, List.append_nil]

lemma update_aliases_merge_idem (L : List (List Char)) (a : Option String) :
    update_aliases_merge (update_aliases_merge L a) a = update_aliases_merge L a := by
  conv_lhs => rw [update_aliases_merge_eq (update_aliases_merge L a) a]
  rw [filter_root_update_aliases_merge, update_aliases_merge_any_devnull]
  simp only [if_true]
  rw [List.append_nil]
  conv_rhs => rw [update_aliases_merge_eq L a]

lemma update_aliases_merge_clean (L : List (List Char)) (a : Option String)
    (hL : ∀ l ∈ L, CleanLine l)
    (ha : (a.getD "").toList.contains '\n' = false) :
    ∀ l ∈ update_aliases_merge L a, CleanLine l := by
  intro l hl
  rw [update_aliases_merge_eq] at hl
  simp only [List.mem_append] at hl
  rcases hl with (hl | hl) | hl
  · exact hL l (List.mem_of_mem_filter hl)
  · cases hd : L.any (fun l => devnullMark.isPrefixOf l) <;> rw [hd] at hl
    · have : l = devnullLine := by simpa using hl
      exact this ▸ cleanLine_devnullLine
    · simp at hl
  · cases a with
    | none => simp at hl
    | some e =>
      cases he : e.isEmpty
      · have : l = rootLineFor e := by simpa [he] using hl
        exact this ▸ cleanLine_rootLineFor e ha
      · simp [he] at hl

lemma update_aliases_content_lines (content : String) (a : Option String)
    (h1 : TerminatedChars content.toList)
    (h2 : (a.getD "").toList.contains '\n' = false) :
    readlines (update_aliases_content content a).toList =
      update_aliases_merge (readlines content.toList) a := by
  have hclean := readlines_clean_of_terminated content.toList h1
  have hM := update_aliases_merge_clean _ a hclean h2
  rw [update_aliases_content]
  exact readlines_flatten_of_clean _ hM

end PostfixRelay

namespace PostfixRelay

/-- Claim C2: when `relay_access_sources` is non-empty, SMTP auth is
enabled, `sender_login_maps` is non-empty and `restrict_senders` is
non-empty, the relay-restrictions builder returns exactly the six
clauses `permit_mynetworks`, `check_client_access
cidr:/etc/postfix/relay_access`, `reject_known_sender_login_mismatch`,
`reject_sender_login_mismatch`, `permit_sasl_authenticated`,
`defer_unauth_destination`, in that order. -/
theorem smtpd_relay_restrictions_full (s : Cfg.State)
    (h1 : s.relay_access_sources ≠ [])
    (h2 : s.enable_smtp_auth = true)
    (h3 : s.sender_login_maps ≠ [])
    (h4 : s.restrict_senders ≠ []) :
    Cfg.smtpd_relay_restrictions s =
      ["permit_mynetworks",
       "check_client_access cidr:/etc/postfix/relay_access",
       "reject_known_sender_login_mismatch",
       "reject_sender_login_mismatch",
       "permit_sasl_authenticated",
       "defer_unauth_destination"] := by
  obtain ⟨a, as, ha⟩ : ∃ a as, s.relay_access_sources = a :: as := by
    cases hx : s.relay_access_sources with
    | nil => exact absurd hx h1
    | cons a as => exact ⟨a, as, rfl⟩
  obtain ⟨b, bs, hb⟩ : ∃ b bs, s.sender_login_maps = b :: bs := by
    cases hx : s.sender_login_maps with
    | nil => exact absurd hx h3
    | cons b bs => exact ⟨b, bs, rfl⟩
  obtain ⟨c, cs, hc⟩ : ∃ c cs, s.restrict_senders = c :: cs := by
    cases hx : s.restrict_senders with
    | nil => exact absurd hx h4
    | cons c cs => exact ⟨c, cs, rfl⟩
  simp [Cfg.smtpd_relay_restrictions, ha, hb, hc, h2]

/-- Witness for C2 at the spec's concrete state. -/
theorem smtpd_relay_restrictions_full_witness :
    Cfg.smtpd_relay_restrictions exampleRelayState =
      ["permit_mynetworks",
       "check_client_access cidr:/etc/postfix/relay_access",
       "reject_known_sender_login_mismatch",
       "reject_sender_login_mismatch",
       "permit_sasl_authenticated",
       "defer_unauth_destination"] :=
  smtpd_relay_restrictions_full exampleRelayState
    (by decide) (by decide) (by decide) (by decide)

/-- Claim C8: the recipient-restrictions builder is exactly the
concatenation of the append-envelope clause (iff `append_x_envelope_to`),
the restricted-senders clause (iff `restrict_senders` non-empty), the
additional restrictions verbatim in order, and the SPF policy clause
(iff `enable_spf`); it is total, so empty inputs give the minimal
list `[]`. -/
theorem smtpd_recipient_restrictions_spec (s : Cfg.State) :
    Cfg.smtpd_recipient_restrictions s =
      (if s.append_x_envelope_to then
        ["check_recipient_access regexp:/etc/postfix/append_envelope_to_header"]
       else []) ++
      (if s.restrict_senders ≠ [] then
        ["check_sender_access hash:/etc/postfix/restricted_senders"]
       else []) ++
      s.additional_smtpd_recipient_restrictions ++
      (if s.enable_spf then ["check_policy_service unix:private/policyd-spf"] else []) := by
  cases hA : s.append_x_envelope_to <;>
    cases hS : s.restrict_senders <;>
      cases hE : s.enable_spf <;>
        simp [Cfg.smtpd_recipient_restrictions, hA, hS, hE]

/-- Claim C4, counterexample: starting from a content with two
`devnull:` lines, the merge keeps both, so the produced content does not
contain exactly one devnull mapping line (and none of its devnull lines
is the canonical mapping of devnull to the null device). -/
theorem update_aliases_devnull_counterexample :
    (readlines (update_aliases_content "devnull: a\ndevnull: b\n" none).toList).countP
        (fun l => devnullMark.isPrefixOf l) = 2 ∧
    ¬ (readlines (update_aliases_content "devnull: a\ndevnull: b\n" none).toList).countP
        (fun l => devnullMark.isPrefixOf l) = 1 ∧
    (readlines (update_aliases_content "devnull: a\ndevnull: b\n" none).toList).countP
        (fun l => l == devnullLine) = 0 := by
  decide

/-- Claim C4 (amended): for every starting content that is empty or
newline-terminated and has at most one line starting with `devnull:`,
and every admin email free of newlines, the merged content contains
exactly one line starting with `devnull:`, and its lines starting with
`root:` are exactly the canonical root-forwarding line for the
configured admin email when that email is truthy, none otherwise. -/
theorem update_aliases_devnull_root_invariant (content : String) (a : Option String)
    (h1 : TerminatedChars content.toList)
    (h2 : (readlines content.toList).countP (fun l => devnullMark.isPrefixOf l) ≤ 1)
    (h3 : (a.getD "").toList.contains '\n' = false) :
    (readlines (update_aliases_content content a).toList).countP
        (fun l => devnullMark.isPrefixOf l) = 1 ∧
    (readlines (update_aliases_content content a).toList).filter
        (fun l => rootMark.isPrefixOf l) =
      (if adminTruthy a then [rootLineFor (a.getD "")] else []) := by
  rw [update_aliases_content_lines content a h1 h3, update_aliases_merge_eq2]
  have hkept : (List.filter (fun l => !(rootMark.isPrefixOf l))
        (readlines content.toList)).countP (fun l => devnullMark.isPrefixOf l) =
      (readlines content.toList).countP (fun l => devnullMark.isPrefixOf l) := by
    rw [List.countP_filter]
    refine List.countP_congr ?_
    intro x _
    simp only [Bool.and_eq_true, Bool.not_eq_true']
    exact ⟨fun hh => hh.1, fun hh => ⟨hh, devnull_not_root x hh⟩⟩
  constructor
  · simp only [List.countP_append]
    rw [hkept]
    have hR : ((if adminTruthy a then [rootLineFor (a.getD "")] else [])
        : List (List Char)).countP (fun l => devnullMark.isPrefixOf l) = 0 := by
      cases adminTruthy a <;>
        simp [List.countP_cons, devnull_not_prefix_rootLineFor]
    rw [hR]
    cases hd : (readlines content.toList).any (fun l => devnullMark.isPrefixOf l) with
    | false =>
      have hz : (readlines content.toList).countP
          (fun l => devnullMark.isPrefixOf l) = 0 := by
        rw [List.any_eq_false] at hd
        exact List.countP_eq_zero.mpr (fun l hl => by simp [hd l hl])
      simp only [hz]
      simp [List.countP_cons, devnull_prefix_devnullLine]
    | true =>
      have hpos : 0 < (readlines content.toList).countP
          (fun l => devnullMark.isPrefixOf l) :=
        List.countP_pos_iff.mpr (List.any_eq_true.mp hd)
      have hone : (readlines content.toList).countP
          (fun l => devnullMark.isPrefixOf l) = 1 := by omega
      simp only [hone]
      simp
  · simp only [List.filter_append]
    have hk : (List.filter (fun l => !(rootMark.isPrefixOf l))
        (readlines content.toList)).filter (fun l => rootMark.isPrefixOf l) = [] := by
      rw [List.filter_filter]
      have hx : ∀ x : List Char,
          (rootMark.isPrefixOf x && !(rootMark.isPrefixOf x)) = false := by
        intro x
        cases rootMark.isPrefixOf x <;> simp
      simp [hx]
    have hD : ((if (readlines content.toList).any (fun l => devnullMark.isPrefixOf l)
        then [] else [devnullLine]) : List (List Char)).filter
        (fun l => rootMark.isPrefixOf l) = [] := by
      cases (readlines content.toList).any (fun l => devnullMark.isPrefixOf l) <;>
        simp [root_not_prefix_devnullLine]
    have hRf : ((if adminTruthy a then [rootLineFor (a.getD "")] else [])
        : List (List Char)).filter (fun l => rootMark.isPrefixOf l) =
        (if adminTruthy a then [rootLineFor (a.getD "")] else []) := by
      cases adminTruthy a <;> simp [root_isPrefixOf_rootLineFor]
    rw [hk, hD, hRf]
    simp

/-- Witness for C4 (amended) at a concrete starting content. -/
theorem update_aliases_devnull_root_invariant_witness :
    (readlines (update_aliases_content "postmaster:    root\n"
          (some "admin@email.com")).toList).countP
        (fun l => devnullMark.isPrefixOf l) = 1 ∧
    (readlines (update_aliases_content "postmaster:    root\n"
          (some "admin@email.com")).toList).filter
        (fun l => rootMark.isPrefixOf l) =
      (if adminTruthy (some "admin@email.com")
       then [rootLineFor ((some "admin@email.com").getD "")] else []) :=
  update_aliases_devnull_root_invariant "postmaster:    root\n"
    (some "admin@email.com") (Or.inr (by decide)) (by decide) (by decide)

/-- Claim C5, counterexample: the alias merge is not idempotent for every
starting content — a content whose final line lacks a terminating
newline glues the appended devnull line onto it, and the second
application appends a second devnull line. -/
theorem update_aliases_idempotent_counterexample :
    update_aliases_content (update_aliases_content "a" (some "e")) (some "e") ≠
      update_aliases_content "a" (some "e") := by
  decide

/-- Claim C5 (amended): for every starting content that is empty or ends
with a newline, and every admin email free of newline characters,
applying the alias merge twice with the same admin email yields the same
output as applying it once (in particular the spec's concrete instance,
see the witness). -/
theorem update_aliases_idempotent (content : String) (a : Option String)
    (h1 : TerminatedChars content.toList)
    (h2 : (a.getD "").toList.contains '\n' = false) :
    update_aliases_content (update_aliases_content content a) a =
      update_aliases_content content a := by
  have hlines := update_aliases_content_lines content a h1 h2
  rw [update_aliases_content, hlines, update_aliases_merge_idem]
  rfl

/-- Witness for C5 (amended) at the spec's concrete instance. -/
theorem update_aliases_idempotent_witness :
    update_aliases_content
        (update_aliases_content
          "devnull:       /dev/null\nroot:          admin@email.com\n"
          (some "admin@email.com"))
        (some "admin@email.com") =
      update_aliases_content
        "devnull:       /dev/null\nroot:          admin@email.com\n"
        (some "admin@email.com") :=
  update_aliases_idempotent
    "devnull:       /dev/null\nroot:          admin@email.com\n"
    (some "admin@email.com") (Or.inr (by decide)) (by decide)

/-! ### The writer (C1) -/

/-- Claim C1, counterexample: the relay operator's `write_file` variant
performs the write, chmod and chown even when the destination already is
a regular file holding byte-identical content. -/
theorem write_file_counterexample :
    (RelayOp.write_file "c" (some ⟨"c", 420, "u", "g"⟩) 420 none "u" "g").2 ≠ [] := by
  decide

/-- Claim C1 (amended): the configurator's `write_file` performs no
filesystem mutation (no write, no chmod, no chown, file state unchanged)
exactly when the destination is a regular file with byte-identical
content, and performs write, chmod and chown when the file is absent or
its content differs; the relay operator's `write_file` variant instead
performs all three operations unconditionally. -/
theorem write_file_idempotence (content : String) (perms : Nat)
    (group : Option String) (owner ownerPrimaryGroup : String) :
    (∀ f : FsFile, f.content = content →
      Cfg.write_file content (some f) perms group owner ownerPrimaryGroup =
        (some f, [])) ∧
    (∀ f : FsFile, f.content ≠ content →
      Cfg.write_file content (some f) perms group owner ownerPrimaryGroup =
        (some ⟨content, perms, owner, group.getD ownerPrimaryGroup⟩,
         [FsOp.write content, FsOp.chmod perms,
          FsOp.chown owner (group.getD ownerPrimaryGroup)])) ∧
    (Cfg.write_file content none perms group owner ownerPrimaryGroup =
      (some ⟨content, perms, owner, group.getD ownerPrimaryGroup⟩,
       [FsOp.write content, FsOp.chmod perms,
        FsOp.chown owner (group.getD ownerPrimaryGroup)])) ∧
    (∀ destination : Option FsFile,
      RelayOp.write_file content destination perms group owner ownerPrimaryGroup =
        (some ⟨content, perms, owner, group.getD ownerPrimaryGroup⟩,
         [FsOp.write content, FsOp.chmod perms,
          FsOp.chown owner (group.getD ownerPrimaryGroup)])) := by
  refine ⟨?_, ?_, rfl, fun _ => rfl⟩
  · intro f hf
    simp [Cfg.write_file, hf]
  · intro f hf
    simp [Cfg.write_file, hf]

/-- Witness for C1 (amended) at concrete inputs: a matching file is left
untouched with no operations; a differing file is rewritten. -/
theorem write_file_idempotence_witness :
    Cfg.write_file "x" (some ⟨"x", 420, "u", "g"⟩) 420 none "u" "g" =
      (some ⟨"x", 420, "u", "g"⟩, []) ∧
    Cfg.write_file "x" (some ⟨"y", 420, "u", "g"⟩) 420 none "u" "g" =
      (some ⟨"x", 420, "u", "g"⟩,
       [FsOp.write "x", FsOp.chmod 420, FsOp.chown "u" "g"]) :=
  ⟨(write_file_idempotence "x" 420 none "u" "g").1 ⟨"x", 420, "u", "g"⟩ rfl,
   (write_file_idempotence "x" 420 none "u" "g").2.1 ⟨"y", 420, "u", "g"⟩
     (by decide)⟩

/-! ### The map builders (C6, C7) -/

/-- Claim C6: every artifact built by the configurator's map builder has
content equal to the management banner, a blank separator line, the
category's serialized body as the spec states it (see `mapBodySpec`),
and a trailing newline. -/
theorem build_postfix_maps_content (postfix_conf_dir : String) (s : Cfg.State)
    (nm : String) (pm : PostfixMap)
    (h : (nm, pm) ∈ Cfg.build_postfix_maps postfix_conf_dir s) :
    pm.content = JUJU_HEADER ++ "\n" ++ mapBodySpec nm s ++ "\n" := by
  fin_cases h <;> simp [mapBodySpec, _create_map]

/-- Witness for C6 at the spec's transport-maps example. -/
theorem build_postfix_maps_content_witness :
    (_create_map "/etc/postfix" PostfixLookupTableType.HASH "transport"
        (kvLines exampleMapState.transport_maps)).content =
      JUJU_HEADER ++ "\n" ++ mapBodySpec "transport_maps" exampleMapState ++ "\n" :=
  build_postfix_maps_content "/etc/postfix" exampleMapState "transport_maps" _
    (by simp [Cfg.build_postfix_maps])

/-- Claim C7: both map builders emit one artifact per recognized map
category for every state — empty state fields still yield an
(empty-bodied) artifact — so the name list of the returned mapping is a
fixed set, independent of the state. -/
theorem build_postfix_maps_fixed_names :
    (∀ (postfix_conf_dir : String) (s : Cfg.State),
      (Cfg.build_postfix_maps postfix_conf_dir s).map Prod.fst =
        ["append_envelope_to_header", "header_checks", "relay_access_sources",
         "relay_recipient_maps", "restrict_recipients", "restrict_senders",
         "sender_access", "sender_login_maps", "smtp_header_checks",
         "tls_policy_maps", "transport_maps", "virtual_alias_maps"]) ∧
    (∀ s : RelayOp.State,
      (RelayOp.build_postfix_maps s).map Prod.fst =
        ["header_checks", "smtp_header_checks", "tls_policy_maps"]) :=
  ⟨fun _ _ => rfl, fun _ => rfl⟩

/-! ### The read-back parsers (C9, C10) -/

lemma toList_append (a b : String) : (a ++ b).toList = a.toList ++ b.toList :=
  String.data_append a b

lemma not_mem_of_contains_false {c : Char} {l : List Char}
    (h : l.contains c = false) : c ∉ l := by
  intro hmem
  rw [List.contains_eq_any_beq, List.any_eq_false] at h
  have hx := h c hmem
  simp at hx

lemma parse_map_line_no_space (l : List Char) (h : ' ' ∉ l) :
    RelayOp._parse_map_line l = none := by
  rw [RelayOp._parse_map_line, splitChar_no_sep ' ' l h]

lemma parse_map_lines_none (L : List (List Char)) (l : List Char)
    (hl : l ∈ L) (hfail : RelayOp._parse_map_line l = none) :
    RelayOp._parse_map_lines L = none := by
  induction L with
  | nil => simp at hl
  | cons x xs ih =>
    rcases List.mem_cons.mp hl with rfl | hmem
    · rw [RelayOp._parse_map_lines, hfail]
    · rw [RelayOp._parse_map_lines]
      cases hx : RelayOp._parse_map_line x with
      | none => rfl
      | some kv => rw [ih hmem]; rfl

/-- Claim C9, counterexample: the parser does not split a line on the
first separator into key and remaining value — a value containing
spaces is truncated at its first space — and the sender-access parser
does not strip only a trailing `" OK"` marker but every occurrence of
the substring. -/
theorem parse_map_counterexample :
    RelayOp._parse_map "k v w" = some [("k", "v")] ∧
    RelayOp._parse_map "k v w" ≠ some [("k", "v w")] ∧
    RelayOp.fetch_sender_access_content "a OKb OK" = ["ab"] ∧
    RelayOp.fetch_sender_access_content "a OKb OK" ≠ ["a OKb"] := by
  decide

/-- Claim C9 (amended): the read-back parser splits each line on the
space separator and keeps only the first two tokens, so a value
containing a space is truncated at that space rather than preserved
whole; the sender-access parser removes every occurrence of the
substring `" OK"` (not only a trailing marker) and strips surrounding
whitespace. -/
theorem parse_map_truncates_values (k v w : String)
    (hk1 : k.toList.contains ' ' = false) (hk2 : k.toList.contains '\n' = false)
    (hv1 : v.toList.contains ' ' = false) (hv2 : v.toList.contains '\n' = false)
    (hw : w.toList.contains '\n' = false) :
    RelayOp._parse_map (k ++ " " ++ v ++ " " ++ w) = some [(k, v)] ∧
    RelayOp.fetch_sender_access_content "a OKb OK" = ["ab"] := by
  constructor
  · have hwhole : (k ++ " " ++ v ++ " " ++ w).toList =
        k.toList ++ ' ' :: (v.toList ++ ' ' :: w.toList) := by
      rw [toList_append, toList_append, toList_append, toList_append]
      simp [List.append_assoc]
    have hnl : '\n' ∉ k.toList ++ ' ' :: (v.toList ++ ' ' :: w.toList) := by
      have hka := not_mem_of_contains_false hk2
      have hva := not_mem_of_contains_false hv2
      have hwa := not_mem_of_contains_false hw
      simp
      exact ⟨hka, hva, hwa⟩
    rw [RelayOp._parse_map, hwhole, splitChar_no_sep '\n' _ hnl,
      RelayOp._parse_map_lines, RelayOp._parse_map_line,
      splitChar_append_sep ' ' k.toList _ (not_mem_of_contains_false hk1),
      splitChar_append_sep ' ' v.toList _ (not_mem_of_contains_false hv1)]
    rfl
  · decide

/-- Witness for C9 (amended) at a concrete key and space-containing
value. -/
theorem parse_map_truncates_values_witness :
    RelayOp._parse_map ("k" ++ " " ++ "v" ++ " " ++ "w x") =
      some [("k", "v")] ∧
    RelayOp.fetch_sender_access_content "a OKb OK" = ["ab"] :=
  parse_map_truncates_values "k" "v" "w x"
    (by decide) (by decide) (by decide) (by decide) (by decide)

/-- Claim C10 (amended): the read-back `_parse_map` fails with an
unhandled IndexError (modelled `none`) for every input containing a line
with no space character, in particular for every input whose final
character is a newline (the split then has a trailing empty line); every
map file content built by the relay operator's own builder ends with a
newline, so every `_parse_map`-based `fetch_*` read-back fails on the
very files this system writes (`fetch_sender_access`, which indexes
nothing, is the one exception — see the counterexample). -/
theorem parse_map_fails_on_written_files :
    (∀ raw : String, (∃ l ∈ splitChar '\n' raw.toList, ' ' ∉ l) →
      RelayOp._parse_map raw = none) ∧
    (∀ raw : String, (∃ m, raw.toList = m ++ ['\n']) →
      RelayOp._parse_map raw = none) ∧
    (∀ (s : RelayOp.State) (nm : String) (pm : PostfixMap),
      (nm, pm) ∈ RelayOp.build_postfix_maps s →
      RelayOp._parse_map pm.content = none) := by
  have h1 : ∀ raw : String, (∃ l ∈ splitChar '\n' raw.toList, ' ' ∉ l) →
      RelayOp._parse_map raw = none := by
    intro raw h
    obtain ⟨l, hl, hsp⟩ := h
    rw [RelayOp._parse_map,
      parse_map_lines_none _ l hl (parse_map_line_no_space l hsp)]
    rfl
  have h2 : ∀ raw : String, (∃ m, raw.toList = m ++ ['\n']) →
      RelayOp._parse_map raw = none := by
    intro raw h
    obtain ⟨m, hm⟩ := h
    refine h1 raw ⟨[], ?_, by simp⟩
    rw [hm, splitChar_concat]
    exact List.mem_append_right _ (List.mem_singleton.mpr rfl)
  have hsfx : ∀ t : String, ∃ m, (t ++ "\n").toList = m ++ ['\n'] := by
    intro t
    refine ⟨t.toList, ?_⟩
    rw [toList_append]
    rfl
  refine ⟨h1, h2, ?_⟩
  intro s nm pm hmem
  simp only [RelayOp.build_postfix_maps, List.mem_cons, List.not_mem_nil,
    or_false, Prod.mk.injEq] at hmem
  rcases hmem with ⟨-, rfl⟩ | ⟨-, rfl⟩ | ⟨-, rfl⟩ <;>
    exact h2 _ (hsfx _)

/-- Claim C10, counterexample: not every `fetch_*` read-back function
fails on a newline-terminated file — `fetch_sender_access` goes through
`_parse_list`, which performs no indexing, and returns normally. -/
theorem fetch_sender_access_total_counterexample :
    RelayOp.fetch_sender_access_content "a OK\n" = ["a", ""] := by
  decide

/-- Witness for C10 (amended): an input with no space, a
newline-terminated input, and the relay operator's own empty
header-checks map file all fail to parse. -/
theorem parse_map_fails_witness :
    RelayOp._parse_map "ab" = none ∧
    RelayOp._parse_map "a b\n" = none ∧
    RelayOp._parse_map (_create_map "/etc/postfix"
        PostfixLookupTableType.REGEXP "header_checks"
        (String.intercalate ";" ([] : List String))).content = none :=
  ⟨parse_map_fails_on_written_files.1 "ab" ⟨"ab".toList, by decide, by decide⟩,
   parse_map_fails_on_written_files.2.1 "a b\n" ⟨"a b".toList, by decide⟩,
   parse_map_fails_on_written_files.2.2 ⟨[], [], []⟩ "header_checks" _
     (by simp [RelayOp.build_postfix_maps])⟩

/-! ### The state constructor (C3) -/

lemma _parse_access_map_none (m : List (String × String))
    (h : ∃ p ∈ m, AccessMapValue.fromValue p.2 = none) :
    Cfg._parse_access_map m = none := by
  induction m with
  | nil =>
    obtain ⟨p, hp, -⟩ := h
    simp at hp
  | cons q rest ih =>
    obtain ⟨p, hp, hv⟩ := h
    obtain ⟨k, v⟩ := q
    rcases List.mem_cons.mp hp with rfl | hmem
    · rw [Cfg._parse_access_map, hv]
    · rw [Cfg._parse_access_map, ih ⟨p, hmem, hv⟩]
      cases AccessMapValue.fromValue v <;> rfl

/-- Claim C3: `State.from_charm` either returns a fully validated state
or fails with `ConfigurationError` (modelled `Except.error`), never a
partial state: an access-map entry whose value is outside
OK/REJECT/restricted fails, a `virtual_alias_maps_type` outside
hash/regexp/cidr fails, an `spf_skip_addresses` entry that is not a
valid IP network literal fails, and a returned state carries exactly the
validated values. -/
theorem from_charm_validates (config : Cfg.CharmConfig) :
    ((∃ p ∈ config.restrict_recipients ++ config.restrict_senders,
        AccessMapValue.fromValue p.2 = none) →
      ∃ msg, Cfg.State.from_charm config = .error msg) ∧
    (PostfixLookupTableType.fromValue config.virtual_alias_maps_type = none →
      ∃ msg, Cfg.State.from_charm config = .error msg) ∧
    ((∃ addr ∈ config.spf_skip_addresses, isValidIpNetwork addr = false) →
      ∃ msg, Cfg.State.from_charm config = .error msg) ∧
    (∀ st : Cfg.State, Cfg.State.from_charm config = .ok st →
      Cfg._parse_access_map config.restrict_recipients =
        some st.restrict_recipients ∧
      Cfg._parse_access_map config.restrict_senders = some st.restrict_senders ∧
      PostfixLookupTableType.fromValue config.virtual_alias_maps_type =
        some st.virtual_alias_maps_type ∧
      st.spf_skip_addresses = config.spf_skip_addresses ∧
      ∀ addr ∈ st.spf_skip_addresses, isValidIpNetwork addr = true) := by
  cases hrr : Cfg._parse_access_map config.restrict_recipients with
  | none =>
    have herr : Cfg.State.from_charm config = .error "Invalid configuration" := by
      simp only [Cfg.State.from_charm, hrr]
    refine ⟨fun _ => ⟨_, herr⟩, fun _ => ⟨_, herr⟩, fun _ => ⟨_, herr⟩, ?_⟩
    intro st hok
    rw [herr] at hok
    simp at hok
  | some rr =>
    cases hrs : Cfg._parse_access_map config.restrict_senders with
    | none =>
      have herr : Cfg.State.from_charm config = .error "Invalid configuration" := by
        simp only [Cfg.State.from_charm, hrr, hrs]
      refine ⟨fun _ => ⟨_, herr⟩, fun _ => ⟨_, herr⟩, fun _ => ⟨_, herr⟩, ?_⟩
      intro st hok
      rw [herr] at hok
      simp at hok
    | some rs =>
      cases hvt : PostfixLookupTableType.fromValue config.virtual_alias_maps_type with
      | none =>
        have herr : Cfg.State.from_charm config = .error "Invalid configuration" := by
          simp only [Cfg.State.from_charm, hrr, hrs, hvt]
        refine ⟨fun _ => ⟨_, herr⟩, fun _ => ⟨_, herr⟩, fun _ => ⟨_, herr⟩, ?_⟩
        intro st hok
        rw [herr] at hok
        simp at hok
      | some vt =>
        refine ⟨?_, ?_, ?_, ?_⟩
        · intro h
          obtain ⟨p, hp, hv⟩ := h
          rcases List.mem_append.mp hp with hmem | hmem
          · rw [_parse_access_map_none config.restrict_recipients
              ⟨p, hmem, hv⟩] at hrr
            simp at hrr
          · rw [_parse_access_map_none config.restrict_senders
              ⟨p, hmem, hv⟩] at hrs
            simp at hrs
        · intro h
          exact Option.noConfusion h
        · intro h
          obtain ⟨addr, ha, hbad⟩ := h
          have hall : config.spf_skip_addresses.all isValidIpNetwork = false :=
            List.all_eq_false.mpr ⟨addr, ha, by simp [hbad]⟩
          refine ⟨"Invalid configuration: invalid field values", ?_⟩
          simp only [Cfg.State.from_charm, hrr, hrs, hvt, hall]
          simp
        · intro st hok
          simp only [Cfg.State.from_charm, hrr, hrs, hvt] at hok
          split at hok
          · next hcond =>
            simp only [Except.ok.injEq] at hok
            subst hok
            simp only [Bool.and_eq_true] at hcond
            obtain ⟨⟨⟨⟨-, -⟩, -⟩, -⟩, hspf⟩ := hcond
            exact ⟨rfl, rfl, rfl, rfl, List.all_eq_true.mp hspf⟩
          · simp at hok

/-- Witness for C3 at the spec's three concrete rejection inputs, plus a
fully valid configuration that produces a state. -/
theorem from_charm_validates_witness :
    (∃ msg, Cfg.State.from_charm
        { exampleCharmConfig with
            restrict_recipients := [("recipient", "invalid_value")] } =
      .error msg) ∧
    (∃ msg, Cfg.State.from_charm
        { exampleCharmConfig with virtual_alias_maps_type := "invalid" } =
      .error msg) ∧
    (∃ msg, Cfg.State.from_charm
        { exampleCharmConfig with spf_skip_addresses := ["192.0.0.0/33"] } =
      .error msg) :=
  ⟨(from_charm_validates _).1
      ⟨("recipient", "invalid_value"), by decide, by decide⟩,
   (from_charm_validates _).2.1 (by decide),
   (from_charm_validates _).2.2.1 ⟨"192.0.0.0/33", by decide, by decide⟩⟩

end PostfixRelay
